import Mathlib

/-!
Verification of the workflow automation engine of this repository.

The definitions below are a shallow embedding of the TypeScript sources:
* `executeNode`, `executeNodesLoop`, `executeNodes`, `evaluateCondition` and
  `runWorkerJob` embed `packages/api/src/services/workflow/workflow-engine.ts`
  (the `WorkflowEngine` class: the BullMQ worker handler, the BFS traversal
  and the per-type node executor switch);
* `activateWorkflow` embeds the `POST /:id/activate` handler of the workflow
  routes file;
* `executeEntry` embeds `WorkflowEngine.execute`;
* `recordMessage`, `calculateScore` and `checkRateLimit` embed the
  `AntiBanService` of `packages/api/src/config/index.ts`.

Side effects (queue jobs, SQL statements, in-process sleeps) are modelled as
an explicit effect trace; thrown JavaScript exceptions are modelled with
`Except String`.  JavaScript quirks that matter are kept: `x || 1000` treats
`0` and `undefined` alike (`jsOrNat`), accessing a field of an `undefined`
`node.data` throws, and an empty-string edge condition is falsy.
-/

namespace Chastly

/-- JS `v || d` for an optional numeric field: both `undefined` and `0` are
falsy, so they fall back to the default. -/
def jsOrNat (v : Option Nat) (d : Nat) : Nat :=
  match v with
  | none => d
  | some 0 => d
  | some n => n

/-- The type-specific `data` payload of a workflow node (loosely-typed map in
the source; the fields read by `executeNode` are listed). -/
structure NodeData where
  channel : Option String := none
  content : Option String := none
  subject : Option String := none
  tag : Option String := none
  title : Option String := none
  description : Option String := none
  assignedTo : Option String := none
  priority : Option String := none
  delayMs : Option Nat := none
  condition : Option String := none
  url : Option String := none
deriving DecidableEq

/-- A workflow node: id, type string, optional data (JS `node.data` may be
`undefined`, in which case any field access throws). -/
structure Node where
  id : String
  type : String
  data : Option NodeData := none
deriving DecidableEq

/-- A workflow edge with an optional condition expression string. -/
structure Edge where
  source : String
  target : String
  condition : Option String := none
deriving DecidableEq

/-- Trigger/context data is an opaque key-value map; the engine only stores
it, never inspects it. -/
abbrev Context := List (String × String)

/-- Observable side effects performed by the engine, in order.  `gateCheck`
is the vocabulary for a consultation of `AntiBanService.checkRateLimit`;
whether the engine ever emits it is a theorem, not an assumption. -/
inductive Effect where
  | addJob (queueName jobName : String) (payload : List (String × Option String))
  | dbQuery (sql : String)
  | dbInsert (table : String)
  | dbUpdate (table : String)
  | sleep (ms : Nat)
  | gateCheck (tenantId channel : String)
deriving DecidableEq

/-- The result objects returned by each case of the `executeNode` switch. -/
inductive NodeResult where
  | triggered
  | sent
  | tagged
  | untagged
  | updated
  | created
  | delayed
  | condition (c : Option String)
  | webhookSent
  | aiTriggered
  | ended
  | unknown
deriving DecidableEq

/-- Error thrown by JS when reading a property of an `undefined` `node.data`. -/
def undefinedDataError : String := "TypeError: Cannot read properties of undefined"

/-- Embedding of `WorkflowEngine.executeNode`: the per-type switch.  Each case
returns the effect trace it performs together with the result object of its
`return` statement; cases that read `node.data` throw when `data` is
`undefined`. -/
def executeNode (node : Node) (tenantId leadId : String) (context : Context) :
    Except String (List Effect × NodeResult) :=
  if node.type = "trigger" then
    .ok ([], .triggered)
  else if node.type = "send_message" then
    match node.data with
    | none => .error undefinedDataError
    | some d =>
      .ok ([.addJob "messages" "send-message"
              [("tenantId", some tenantId), ("leadId", some leadId),
               ("channel", d.channel), ("content", d.content)]], .sent)
  else if node.type = "send_email" then
    match node.data with
    | none => .error undefinedDataError
    | some d =>
      .ok ([.addJob "messages" "send-message"
              [("tenantId", some tenantId), ("leadId", some leadId),
               ("channel", some "email"), ("content", d.content),
               ("subject", d.subject)]], .sent)
  else if node.type = "add_tag" then
    match node.data with
    | none => .error undefinedDataError
    | some _ =>
      .ok ([.dbQuery "UPDATE leads SET tags = array_append(tags, $1) WHERE id = $2 AND tenant_id = $3"],
           .tagged)
  else if node.type = "remove_tag" then
    match node.data with
    | none => .error undefinedDataError
    | some _ =>
      .ok ([.dbQuery "UPDATE leads SET tags = array_remove(tags, $1) WHERE id = $2 AND tenant_id = $3"],
           .untagged)
  else if node.type = "update_lead" then
    match node.data with
    | none => .error undefinedDataError
    | some _ => .ok ([.dbUpdate "leads"], .updated)
  else if node.type = "create_task" then
    match node.data with
    | none => .error undefinedDataError
    | some _ => .ok ([.dbInsert "tasks"], .created)
  else if node.type = "delay" then
    match node.data with
    | none => .error undefinedDataError
    | some d => .ok ([.sleep (jsOrNat d.delayMs 1000)], .delayed)
  else if node.type = "condition" then
    match node.data with
    | none => .error undefinedDataError
    | some d => .ok ([], .condition d.condition)
  else if node.type = "webhook" then
    match node.data with
    | none => .error undefinedDataError
    | some d =>
      .ok ([.addJob "messages" "send-webhook"
              [("tenantId", some tenantId), ("url", d.url), ("leadId", some leadId)]],
           .webhookSent)
  else if node.type = "ai_agent" then
    .ok ([], .aiTriggered)
  else if node.type = "end" then
    .ok ([], .ended)
  else
    .ok ([], .unknown)

/-- Embedding of `WorkflowEngine.evaluateCondition`: the source is a stub that
ignores its arguments and returns `true` (the `catch` branch is dead code). -/
def evaluateCondition (condition : String) (result : NodeResult) : Bool :=
  true

/-- Whether the traversal follows an edge: the source checks the condition
only when `edge.condition` is truthy (so `undefined` and the empty string skip
the check), then drops the edge when `evaluateCondition` is false. -/
def edgeTaken (edge : Edge) (result : NodeResult) : Bool :=
  match edge.condition with
  | none => true
  | some c => if c = "" then true else evaluateCondition c result

/-- Targets enqueued after a node finishes: the outgoing edges of the node
whose condition passes. -/
def nextTargets (edges : List Edge) (nodeId : String) (result : NodeResult) :
    List String :=
  (((edges.filter (fun e => e.source == nodeId)).filter
      (fun e => edgeTaken e result)).map (fun e => e.target))

/-- State of the BFS loop of `executeNodes`: the work queue, the
`executedNodes` set (a list used as a set) and the accumulated results. -/
structure LoopState where
  queue : List String
  executed : List String
  results : List (String × NodeResult)
deriving DecidableEq

/-- Embedding of the `while (queue.length > 0)` loop of
`WorkflowEngine.executeNodes`, made total with fuel.  Each iteration pops a
node id, skips it when already executed or not found, otherwise executes it,
records the result, marks it executed and enqueues the passing edge targets.
An executor throw aborts the whole loop. -/
def executeNodesLoop (nodes : List Node) (edges : List Edge)
    (tenantId leadId : String) (context : Context) :
    Nat → LoopState → Except String LoopState
  | 0, s => .ok s
  | Nat.succ fuel, s =>
    match s.queue with
    | [] => .ok s
    | nodeId :: rest =>
      if nodeId ∈ s.executed then
        executeNodesLoop nodes edges tenantId leadId context fuel
          ⟨rest, s.executed, s.results⟩
      else
        match nodes.find? (fun n => n.id == nodeId) with
        | none =>
          executeNodesLoop nodes edges tenantId leadId context fuel
            ⟨rest, s.executed, s.results⟩
        | some node =>
          match executeNode node tenantId leadId context with
          | .error e => .error e
          | .ok (_, result) =>
            executeNodesLoop nodes edges tenantId leadId context fuel
              ⟨rest ++ nextTargets edges nodeId result,
               s.executed ++ [nodeId],
               s.results ++ [(nodeId, result)]⟩

/-- Number of node ids not yet in the executed set. -/
def unexecutedCount (nodes : List Node) (executed : List String) : Nat :=
  ((nodes.map (fun n => n.id)).filter (fun i => decide (i ∉ executed))).length

/-- Decreasing measure for the BFS loop: each iteration either pops without
pushing, or executes a fresh node, pushing at most `edges.length` targets. -/
def loopMeasure (nodes : List Node) (edges : List Edge) (s : LoopState) : Nat :=
  unexecutedCount nodes s.executed * (edges.length + 1) + s.queue.length

/-- Embedding of `WorkflowEngine.executeNodes`: throws when there is no
trigger node, otherwise runs the BFS loop seeded with the trigger node id.
The fuel `loopMeasure` is enough for the loop to drain its queue
(`loop_drains_queue` below). -/
def executeNodes (nodes : List Node) (edges : List Edge)
    (tenantId leadId : String) (context : Context) :
    Except String (List (String × NodeResult)) :=
  match nodes.find? (fun n => n.type == "trigger") with
  | none => .error "No trigger node found"
  | some triggerNode =>
    (executeNodesLoop nodes edges tenantId leadId context
        (loopMeasure nodes edges ⟨[triggerNode.id], [], []⟩)
        ⟨[triggerNode.id], [], []⟩).map (fun s => s.results)

/-- The `workflow_executions` row as the worker leaves it. -/
structure ExecutionRecord where
  workflow_id : String
  tenant_id : String
  lead_id : String
  status : String
  node_results : List (String × NodeResult)
deriving DecidableEq

/-- Outcome of one run of the worker handler of `WorkflowEngine.initialize`:
the final DB state of the execution row it inserted (if any), the sequence of
statuses that row has held, and the value returned to (or error rethrown at)
the job queue. -/
structure WorkerOutcome where
  record : Option ExecutionRecord
  statusHistory : List String
  jobResult : Except String (List (String × NodeResult))

/-- A stored workflow definition (nodes and edges, as the worker reads them). -/
structure Workflow where
  nodes : List Node
  edges : List Edge
deriving DecidableEq

/-- Embedding of the worker handler in `WorkflowEngine.initialize`: looks up
the workflow (throwing when missing), inserts an execution row with status
`running` and empty `node_results`, runs `executeNodes`, and on success
updates the row to `completed` with the results.  A thrown error is logged
and rethrown; the row is left untouched. -/
def runWorkerJob (workflow : Option Workflow) (workflowId tenantId leadId : String)
    (triggerData : Context) : WorkerOutcome :=
  match workflow with
  | none =>
    { record := none, statusHistory := [], jobResult := .error "Workflow not found" }
  | some wf =>
    let created : ExecutionRecord :=
      { workflow_id := workflowId, tenant_id := tenantId, lead_id := leadId,
        status := "running", node_results := [] }
    match executeNodes wf.nodes wf.edges tenantId leadId triggerData with
    | .ok results =>
      { record := some { created with status := "completed", node_results := results },
        statusHistory := ["running", "completed"],
        jobResult := .ok results }
    | .error e =>
      { record := some created, statusHistory := ["running"], jobResult := .error e }

/-- A status is terminal when the execution can no longer progress
(spec vocabulary: completed, failed, cancelled). -/
def isTerminal (status : String) : Bool :=
  status = "completed" || status = "failed" || status = "cancelled"

/-- Effect of one trigger job on the `workflow_executions` table: the worker
inserts a fresh row whenever the workflow exists, unconditionally. -/
def processTrigger (db : List ExecutionRecord) (workflow : Option Workflow)
    (workflowId tenantId leadId : String) (triggerData : Context) :
    List ExecutionRecord :=
  match (runWorkerJob workflow workflowId tenantId leadId triggerData).record with
  | none => db
  | some r => db ++ [r]

/-- Non-terminal executions stored for one (workflow, lead) pair. -/
def nonTerminalCount (db : List ExecutionRecord) (workflowId leadId : String) : Nat :=
  (db.filter (fun r =>
    r.workflow_id == workflowId && r.lead_id == leadId && !(isTerminal r.status))).length

/-- A `workflows` table row as the routes see it. -/
structure WorkflowRow where
  id : String
  tenant_id : String
  status : String
  nodes : List Node
  edges : List Edge
deriving DecidableEq

/-- Response body of the activation route. -/
structure RouteResponse where
  success : Bool
  message : String
deriving DecidableEq

/-- Embedding of the `POST /:id/activate` handler of the workflow routes:
one unconditional `UPDATE workflows SET status = 'active'` followed by a
success response.  No validation of nodes or edges happens. -/
def activateWorkflow (wf : WorkflowRow) : WorkflowRow × RouteResponse :=
  ({ wf with status := "active" }, { success := true, message := "Workflow activated" })

/-- An edge whose target id is not among the workflow's node ids
(the malformed-graph shape named by the spec). -/
def hasDanglingEdge (nodes : List Node) (edges : List Edge) : Bool :=
  edges.any (fun e => !(nodes.any (fun n => n.id == e.target)))

/-- Embedding of `WorkflowEngine.execute`: enqueues one `execute-workflow`
job carrying the workflow id and the caller's data, then returns
`{ jobId: job.id, status: 'queued' }` immediately.  The returned record is
kept as a field-name/value list to talk about which fields it carries;
`jobId` stands for the id the queue assigned to the job. -/
def executeEntry (workflowId : String) (data : List (String × Option String))
    (jobId : String) : List Effect × List (String × String) :=
  ([.addJob "workflows" "execute-workflow" (("workflowId", some workflowId) :: data)],
   [("jobId", jobId), ("status", "queued")])

/-- One entry of the `AntiBanService.reputationScores` map. -/
structure ReputationScore where
  tenantId : String
  channel : String
  score : ℚ
  messagesSent : Nat
  messagesFailed : Nat
  lastMessageAt : Int
deriving DecidableEq

/-- The map key `tenantId:channel`. -/
def repKey (tenantId channel : String) : String :=
  tenantId ++ ":" ++ channel

/-- The entry `recordMessage` creates for a key seen for the first time. -/
def freshReputation (tenantId channel : String) (success : Bool) (now : Int) :
    ReputationScore :=
  { tenantId := tenantId, channel := channel,
    score := if success then 100 else 90,
    messagesSent := 1,
    messagesFailed := if success then 0 else 1,
    lastMessageAt := now }

/-- `Map.set` on the assoc-list model: replace the value stored at `key`. -/
def setRep (scores : List (String × ReputationScore)) (key : String)
    (v : ReputationScore) : List (String × ReputationScore) :=
  scores.map (fun p => if p.1 = key then (key, v) else p)

/-- Embedding of `AntiBanService.calculateScore`.  `now` is the clock read by
`new Date()`; the source mutates `lastMessageAt` before calling this, so the
velocity penalty compares against the already-updated timestamp. -/
def calculateScore (reputation : ReputationScore) (now : Int) : ℚ :=
  let failureRate : ℚ := (reputation.messagesFailed : ℚ) / (reputation.messagesSent : ℚ)
  let score : ℚ := 100 - failureRate * 50
  let score : ℚ := if now - reputation.lastMessageAt < 1000 then score - 10 else score
  max 0 (min 100 score)

/-- The in-place mutation `recordMessage` performs on an existing entry
before recomputing its score: bump the counters and the timestamp. -/
def bumpedRep (existing : ReputationScore) (success : Bool) (now : Int) :
    ReputationScore :=
  { existing with
    messagesSent := existing.messagesSent + 1,
    messagesFailed := existing.messagesFailed + (if success then 0 else 1),
    lastMessageAt := now }

/-- The existing entry after `recordMessage`: counters bumped, then
`existing.score = this.calculateScore(existing)` on the bumped entry. -/
def scoredRep (existing : ReputationScore) (success : Bool) (now : Int) :
    ReputationScore :=
  { bumpedRep existing success now with
    score := calculateScore (bumpedRep existing success now) now }

/-- Embedding of `AntiBanService.recordMessage`: bump the counters and
timestamp of an existing entry and recompute its score, or create a fresh
entry scored 100 (success) / 90 (failure). -/
def recordMessage (scores : List (String × ReputationScore))
    (tenantId channel : String) (success : Bool) (now : Int) :
    List (String × ReputationScore) :=
  match scores.lookup (repKey tenantId channel) with
  | some existing =>
    setRep scores (repKey tenantId channel) (scoredRep existing success now)
  | none =>
    scores ++ [(repKey tenantId channel, freshReputation tenantId channel success now)]

/-- A whole call history applied to the initially empty reputation map.
Each call is (tenantId, channel, success, now). -/
def runRecordMessages (calls : List (String × String × Bool × Int)) :
    List (String × ReputationScore) :=
  calls.foldl (fun st c => recordMessage st c.1 c.2.1 c.2.2.1 c.2.2.2) []

/-- Answer of `AntiBanService.checkRateLimit`. -/
structure RateLimitAnswer where
  allowed : Bool
  retryAfter : Option Nat := none
deriving DecidableEq

/-- Embedding of `AntiBanService.checkRateLimit`: unknown keys are allowed;
a score below 30 blocks for an hour; otherwise the hourly message count
(a DB read, passed in as `messagesInLastHour`) is checked against the limit
of 100. -/
def checkRateLimit (scores : List (String × ReputationScore))
    (tenantId channel : String) (messagesInLastHour : Nat) : RateLimitAnswer :=
  match scores.lookup (repKey tenantId channel) with
  | none => { allowed := true }
  | some reputation =>
    if reputation.score < 30 then { allowed := false, retryAfter := some 3600 }
    else if 100 ≤ messagesInLastHour then { allowed := false, retryAfter := some 3600 }
    else { allowed := true }

/-- The node type strings that have a dedicated case in the `executeNode`
switch; every other string falls through to the default case. -/
def handledNodeTypes : List String :=
  ["trigger", "send_message", "send_email", "add_tag", "remove_tag",
   "update_lead", "create_task", "delay", "condition", "webhook",
   "ai_agent", "end"]

/-- Recognizer for the gate-consultation effect. -/
def Effect.isGateCheck : Effect → Bool
  | .gateCheck _ _ => true
  | _ => false

/-! ### Lemmas about the BFS loop: termination measure and result uniqueness -/

lemma length_filter_mono {l : List String} {p q : String → Bool}
    (h : ∀ x, q x = true → p x = true) :
    (l.filter q).length ≤ (l.filter p).length := by
  induction l with
  | nil => simp
  | cons b t ih =>
    simp only [List.filter_cons]
    cases hq : q b <;> cases hp : p b <;> simp_all <;> omega

lemma length_filter_strict {l : List String} {p q : String → Bool} {a : String}
    (himp : ∀ x, q x = true → p x = true) (ha : a ∈ l)
    (hpa : p a = true) (hqa : q a = false) :
    (l.filter q).length < (l.filter p).length := by
  induction l with
  | nil => cases ha
  | cons b t ih =>
    simp only [List.filter_cons]
    rcases List.mem_cons.mp ha with rfl | hat
    · rw [hpa, hqa]
      simp only [Bool.false_eq_true, if_false, if_true, List.length_cons]
      exact Nat.lt_succ_of_le (length_filter_mono himp)
    · cases hq : q b
      · cases hp : p b
        · simpa using ih hat
        · simp only [Bool.false_eq_true, if_false, if_true, List.length_cons]
          exact Nat.lt_succ_of_lt (ih hat)
      · rw [himp b hq]
        simpa using ih hat

lemma unexecutedCount_append_lt {nodes : List Node} {executed : List String}
    {nodeId : String} (hmem : nodeId ∈ nodes.map (fun n => n.id))
    (hnot : nodeId ∉ executed) :
    unexecutedCount nodes (executed ++ [nodeId]) < unexecutedCount nodes executed := by
  unfold unexecutedCount
  apply length_filter_strict (a := nodeId) _ hmem
  · simpa using hnot
  · simp
  · intro x hx
    simp only [decide_eq_true_eq] at hx ⊢
    intro hmemx
    exact hx (List.mem_append_left _ hmemx)

lemma nextTargets_length_le (edges : List Edge) (nodeId : String)
    (result : NodeResult) :
    (nextTargets edges nodeId result).length ≤ edges.length := by
  unfold nextTargets
  rw [List.length_map]
  exact le_trans (List.length_filter_le _ _) (List.length_filter_le _ _)

lemma find?_id_mem {nodes : List Node} {nodeId : String} {node : Node}
    (h : nodes.find? (fun n => n.id == nodeId) = some node) :
    nodeId ∈ nodes.map (fun n => n.id) := by
  have hmem : node ∈ nodes := List.mem_of_find?_eq_some h
  have hid := List.find?_some h
  have heq : node.id = nodeId := by simpa using hid
  exact heq ▸ List.mem_map_of_mem (fun n => n.id) hmem

/-- With fuel at least the measure of the starting state, the BFS loop drains
its queue: the `while (queue.length > 0)` loop of the source terminates. -/
lemma loop_drains_queue (nodes : List Node) (edges : List Edge)
    (tenantId leadId : String) (context : Context) :
    ∀ (fuel : Nat) (s : LoopState), loopMeasure nodes edges s ≤ fuel →
      ∀ s', executeNodesLoop nodes edges tenantId leadId context fuel s = .ok s' →
        s'.queue = [] := by
  intro fuel
  induction fuel with
  | zero =>
    rintro ⟨queue, executed, results⟩ hm s' h
    simp only [executeNodesLoop, Except.ok.injEq] at h
    subst h
    unfold loopMeasure at hm
    simp only at hm
    show queue = []
    exact List.length_eq_zero.mp (by omega)
  | succ fuel ih =>
    rintro ⟨queue, executed, results⟩ hm s' h
    cases queue with
    | nil =>
      simp only [executeNodesLoop, Except.ok.injEq] at h
      subst h
      rfl
    | cons nodeId rest =>
      simp only [executeNodesLoop] at h
      by_cases hex : nodeId ∈ executed
      · rw [if_pos hex] at h
        refine ih ⟨rest, executed, results⟩ ?_ s' h
        unfold loopMeasure at hm ⊢
        simp only [List.length_cons] at hm ⊢
        omega
      · rw [if_neg hex] at h
        split at h
        · refine ih ⟨rest, executed, results⟩ ?_ s' h
          unfold loopMeasure at hm ⊢
          simp only [List.length_cons] at hm ⊢
          omega
        · rename_i node hfind
          split at h
          · exact absurd h (by simp)
          · rename_i effs result hexec
            refine ih _ ?_ s' h
            have hlt := unexecutedCount_append_lt (find?_id_mem hfind) hex
            have htl := nextTargets_length_le edges nodeId result
            unfold loopMeasure at hm ⊢
            simp only [List.length_cons, List.length_append] at hm ⊢
            have hmul : unexecutedCount nodes (executed ++ [nodeId]) * (edges.length + 1)
                + (edges.length + 1)
                ≤ unexecutedCount nodes executed * (edges.length + 1) := by
              have h1 : unexecutedCount nodes (executed ++ [nodeId]) + 1
                  ≤ unexecutedCount nodes executed := hlt
              calc unexecutedCount nodes (executed ++ [nodeId]) * (edges.length + 1)
                    + (edges.length + 1)
                  = (unexecutedCount nodes (executed ++ [nodeId]) + 1) * (edges.length + 1) := by
                    ring
                _ ≤ unexecutedCount nodes executed * (edges.length + 1) :=
                    Nat.mul_le_mul_right _ h1
            revert hmul hm
            generalize unexecutedCount nodes (executed ++ [nodeId]) * (edges.length + 1) = x
            generalize unexecutedCount nodes executed * (edges.length + 1) = y
            intro hmul hm
            omega

/-- The loop preserves: result node ids are duplicate-free and all lie in the
executed set (a node id is recorded exactly when it is marked executed). -/
lemma loop_preserves_nodup (nodes : List Node) (edges : List Edge)
    (tenantId leadId : String) (context : Context) :
    ∀ (fuel : Nat) (s : LoopState),
      (s.results.map Prod.fst).Nodup →
      (∀ i ∈ s.results.map Prod.fst, i ∈ s.executed) →
      ∀ s', executeNodesLoop nodes edges tenantId leadId context fuel s = .ok s' →
        (s'.results.map Prod.fst).Nodup ∧
          ∀ i ∈ s'.results.map Prod.fst, i ∈ s'.executed := by
  intro fuel
  induction fuel with
  | zero =>
    rintro ⟨queue, executed, results⟩ hnd hsub s' h
    simp only [executeNodesLoop, Except.ok.injEq] at h
    subst h
    exact ⟨hnd, hsub⟩
  | succ fuel ih =>
    rintro ⟨queue, executed, results⟩ hnd hsub s' h
    cases queue with
    | nil =>
      simp only [executeNodesLoop, Except.ok.injEq] at h
      subst h
      exact ⟨hnd, hsub⟩
    | cons nodeId rest =>
      simp only [executeNodesLoop] at h
      by_cases hex : nodeId ∈ executed
      · rw [if_pos hex] at h
        exact ih ⟨rest, executed, results⟩ hnd hsub s' h
      · rw [if_neg hex] at h
        split at h
        · exact ih ⟨rest, executed, results⟩ hnd hsub s' h
        · rename_i node hfind
          split at h
          · exact absurd h (by simp)
          · rename_i effs result hexec
            refine ih _ ?_ ?_ s' h
            · simp only [List.map_append, List.map_cons, List.map_nil]
              rw [List.nodup_append]
              refine ⟨hnd, List.nodup_singleton _, ?_⟩
              intro i hi hi'
              simp only [List.mem_singleton] at hi'
              subst hi'
              exact hex (hsub i hi)
            · intro i hi
              simp only [List.map_append, List.map_cons, List.map_nil,
                List.mem_append, List.mem_singleton] at hi
              rcases hi with hi | rfl
              · exact List.mem_append_left _ (hsub i hi)
              · exact List.mem_append_right _ (List.mem_singleton_self _)

/-- `nextTargets` keeps every outgoing edge: the stubbed condition evaluator
never rejects one. -/
lemma nextTargets_eq_all (edges : List Edge) (nodeId : String)
    (result : NodeResult) :
    nextTargets edges nodeId result
      = (edges.filter (fun e => e.source == nodeId)).map (fun e => e.target) := by
  unfold nextTargets
  congr 1
  apply List.filter_eq_self.mpr
  intro e _
  unfold edgeTaken evaluateCondition
  cases e.condition with
  | none => rfl
  | some c => simp

/-! ### Lemmas about the reputation score -/

lemma calculateScore_bounds (reputation : ReputationScore) (now : Int) :
    0 ≤ calculateScore reputation now ∧ calculateScore reputation now ≤ 100 := by
  unfold calculateScore
  refine ⟨le_max_left _ _, max_le (by norm_num) (min_le_left _ _)⟩

lemma scoredRep_bounds (existing : ReputationScore) (success : Bool) (now : Int) :
    0 ≤ (scoredRep existing success now).score
      ∧ (scoredRep existing success now).score ≤ 100 := by
  unfold scoredRep
  exact calculateScore_bounds _ _

lemma recordMessage_preserves_bounds (scores : List (String × ReputationScore))
    (hb : ∀ p ∈ scores, 0 ≤ p.2.score ∧ p.2.score ≤ 100)
    (tenantId channel : String) (success : Bool) (now : Int) :
    ∀ p ∈ recordMessage scores tenantId channel success now,
      0 ≤ p.2.score ∧ p.2.score ≤ 100 := by
  intro p hp
  unfold recordMessage at hp
  split at hp
  · rename_i existing hlk
    unfold setRep at hp
    rcases List.mem_map.mp hp with ⟨q, hq, hfq⟩
    by_cases hqk : q.1 = repKey tenantId channel
    · rw [if_pos hqk] at hfq
      rw [← hfq]
      exact scoredRep_bounds _ _ _
    · rw [if_neg hqk] at hfq
      rw [← hfq]
      exact hb q hq
  · rcases List.mem_append.mp hp with hmem | hmem
    · exact hb p hmem
    · simp only [List.mem_singleton] at hmem
      subst hmem
      cases success <;> norm_num [freshReputation]

lemma runRecordMessages_bounds_aux :
    ∀ (calls : List (String × String × Bool × Int))
      (scores : List (String × ReputationScore)),
      (∀ p ∈ scores, 0 ≤ p.2.score ∧ p.2.score ≤ 100) →
      ∀ p ∈ calls.foldl (fun st c => recordMessage st c.1 c.2.1 c.2.2.1 c.2.2.2) scores,
        0 ≤ p.2.score ∧ p.2.score ≤ 100 := by
  intro calls
  induction calls with
  | nil => intro scores hb p hp; exact hb p hp
  | cons c t ih =>
    intro scores hb p hp
    simp only [List.foldl_cons] at hp
    exact ih _ (recordMessage_preserves_bounds scores hb c.1 c.2.1 c.2.2.1 c.2.2.2) p hp

/-! ### Concrete inputs used by counterexamples and witnesses -/

/-- A two-node graph whose edges form a cycle (t1 → a1 → t1). -/
def cycNodes : List Node :=
  [{ id := "t1", type := "trigger" }, { id := "a1", type := "end" }]

/-- The cyclic edge set for `cycNodes`. -/
def cycEdges : List Edge :=
  [{ source := "t1", target := "a1" }, { source := "a1", target := "t1" }]

/-- A delay node configured with 5000 ms. -/
def delayNode : Node :=
  { id := "d1", type := "delay", data := some { delayMs := some 5000 } }

/-- trigger → delay(5000). -/
def delayWf : Workflow :=
  { nodes := [{ id := "t1", type := "trigger" }, delayNode],
    edges := [{ source := "t1", target := "d1" }] }

/-- trigger → send_message whose `data` is `undefined`, so its executor
throws when reading `node.data.channel`. -/
def throwWf : Workflow :=
  { nodes := [{ id := "t1", type := "trigger" },
              { id := "s1", type := "send_message" }],
    edges := [{ source := "t1", target := "s1" }] }

/-- A workflow row whose single edge points at a node id that does not
exist. -/
def danglingWf : WorkflowRow :=
  { id := "wf9", tenant_id := "ten", status := "draft",
    nodes := [{ id := "t1", type := "trigger" }],
    edges := [{ source := "t1", target := "ghost" }] }

/-- A concrete send_message node with channel and content set. -/
def sendNode : Node :=
  { id := "s1", type := "send_message",
    data := some { channel := some "whatsapp", content := some "hi" } }

/-- A reputation map in which (ten, whatsapp) sits at score 10, below the
blocking floor of 30. -/
def lowReputation : List (String × ReputationScore) :=
  [("ten:whatsapp",
    { tenantId := "ten", channel := "whatsapp", score := 10,
      messagesSent := 5, messagesFailed := 5, lastMessageAt := 0 })]

/-- trigger → end, with the connecting edge conditioned on a context
variable that no context in these runs defines. -/
def condNodes : List Node :=
  [{ id := "t2", type := "trigger" }, { id := "x1", type := "end" }]

/-- The conditioned edge set for `condNodes`. -/
def condEdges : List Edge :=
  [{ source := "t2", target := "x1", condition := some "lead.score > 10" }]

/-- A node of a type the switch does not handle. -/
def waitNode : Node := { id := "w1", type := "wait_for_reply" }

/-- The reputation entry left by one successful message for (t, whatsapp)
at time 0. -/
def e9 : String × ReputationScore :=
  ("t:whatsapp", freshReputation "t" "whatsapp" true 0)

/-! ### Claims -/

/-- C1: an Execution that reaches a configured `delay` node never enters
status `suspended`.  At the concrete input (trigger → delay with
`delayMs = 5000`) the executor blocks the worker in-process with a 5000 ms
sleep and returns `{delayed: true}`, and the execution row's status history
is `running` then `completed` — `suspended` never occurs, so the worker
cannot re-enter `running` later: it simply never left it. -/
theorem delay_node_blocks_in_process_and_never_suspends :
    executeNode delayNode "ten" "lead" [] = .ok ([.sleep 5000], .delayed)
    ∧ (runWorkerJob (some delayWf) "wf1" "ten" "lead" []).statusHistory
        = ["running", "completed"]
    ∧ "suspended" ∉ (runWorkerJob (some delayWf) "wf1" "ten" "lead" []).statusHistory := by
  refine ⟨rfl, rfl, ?_⟩
  intro hmem
  rw [show (runWorkerJob (some delayWf) "wf1" "ten" "lead" []).statusHistory
        = ["running", "completed"] from rfl] at hmem
  simp at hmem

/-- C2: one traversal pass executes each node at most once — the result list
never repeats a node id — and the BFS loop terminates: fuel equal to the
measure of the starting state already drains the queue, for every graph,
including cyclic ones. -/
theorem traversal_executes_each_node_once_and_terminates :
    (∀ (nodes : List Node) (edges : List Edge) (tenantId leadId : String)
       (context : Context) (results : List (String × NodeResult)),
       executeNodes nodes edges tenantId leadId context = .ok results →
         (results.map Prod.fst).Nodup)
    ∧ (∀ (nodes : List Node) (edges : List Edge) (tenantId leadId : String)
         (context : Context) (fuel : Nat) (s : LoopState),
         loopMeasure nodes edges s ≤ fuel →
         ∀ s', executeNodesLoop nodes edges tenantId leadId context fuel s = .ok s' →
           s'.queue = []) := by
  constructor
  · intro nodes edges tenantId leadId context results h
    unfold executeNodes at h
    split at h
    · exact absurd h (by simp)
    · rename_i triggerNode hfind
      cases hloop : executeNodesLoop nodes edges tenantId leadId context
          (loopMeasure nodes edges ⟨[triggerNode.id], [], []⟩)
          ⟨[triggerNode.id], [], []⟩ with
      | error e =>
        rw [hloop] at h
        exact absurd h (by simp [Except.map])
      | ok sF =>
        rw [hloop] at h
        simp only [Except.map, Except.ok.injEq] at h
        subst h
        exact (loop_preserves_nodup nodes edges tenantId leadId context _ _
          (by simp) (by simp) sF hloop).1
  · intro nodes edges tenantId leadId context
    exact loop_drains_queue nodes edges tenantId leadId context

/-- Witness for C2: on the cyclic graph t1 → a1 → t1, the pass executes t1
and a1 exactly once each, and the loop drains its queue within the measure
(7 steps of fuel). -/
theorem traversal_once_witness :
    (([("t1", NodeResult.triggered), ("a1", NodeResult.ended)] :
        List (String × NodeResult)).map Prod.fst).Nodup
    ∧ (⟨[], ["t1", "a1"],
        [("t1", NodeResult.triggered), ("a1", NodeResult.ended)]⟩ :
          LoopState).queue = [] := by
  constructor
  · exact traversal_executes_each_node_once_and_terminates.1
      cycNodes cycEdges "ten" "lead" [] _ rfl
  · exact traversal_executes_each_node_once_and_terminates.2
      cycNodes cycEdges "ten" "lead" [] 7 ⟨["t1"], [], []⟩ (by decide) _ rfl

/-- C3 counterexample: in trigger → send_message-with-undefined-data the
executor throws, yet the execution row keeps status `running` (not
`failed`), its `node_results` stays empty (no error recorded), and the
error propagates out of the worker. -/
theorem executor_throw_not_recorded_counterexample :
    (runWorkerJob (some throwWf) "wf1" "ten" "lead" []).record
      = some { workflow_id := "wf1", tenant_id := "ten", lead_id := "lead",
               status := "running", node_results := [] }
    ∧ (runWorkerJob (some throwWf) "wf1" "ten" "lead" []).jobResult
      = .error undefinedDataError
    ∧ (runWorkerJob (some throwWf) "wf1" "ten" "lead" []).statusHistory
      = ["running"] :=
  ⟨rfl, rfl, rfl⟩

/-- C3 amended: when a node executor throws, the traversal aborts and the
worker rethrows the error to the job queue; the execution row it inserted
keeps status `running` with empty `node_results` — the engine records
nothing and performs no retry of its own. -/
theorem executor_throw_leaves_execution_running (wf : Workflow)
    (workflowId tenantId leadId : String) (triggerData : Context) (e : String)
    (h : executeNodes wf.nodes wf.edges tenantId leadId triggerData = .error e) :
    runWorkerJob (some wf) workflowId tenantId leadId triggerData
      = { record := some { workflow_id := workflowId, tenant_id := tenantId,
                           lead_id := leadId, status := "running",
                           node_results := [] },
          statusHistory := ["running"],
          jobResult := .error e } := by
  simp only [runWorkerJob]
  rw [h]

/-- Witness for C3: the amended statement applied to the throwing
workflow. -/
theorem executor_throw_leaves_execution_running_witness :
    runWorkerJob (some throwWf) "wf2" "ten" "lead" []
      = { record := some { workflow_id := "wf2", tenant_id := "ten",
                           lead_id := "lead", status := "running",
                           node_results := [] },
          statusHistory := ["running"],
          jobResult := .error undefinedDataError } :=
  executor_throw_leaves_execution_running throwWf "wf2" "ten" "lead" []
    undefinedDataError rfl

/-- C4 counterexample: two trigger jobs for the same (workflow, lead) while
the first execution is still non-terminal (its executor threw, so its row
stays `running`) leave two non-terminal executions for that pair. -/
theorem second_trigger_creates_second_execution :
    nonTerminalCount
      (processTrigger
        (processTrigger [] (some throwWf) "wf1" "ten" "lead7" [])
        (some throwWf) "wf1" "ten" "lead7" [])
      "wf1" "lead7" = 2 := rfl

/-- C4 amended: every trigger job for an existing workflow unconditionally
inserts a fresh execution row for that (workflow, lead) pair — there is no
run_once_per_lead deduplication, so a second trigger always creates a
second Execution. -/
theorem trigger_always_inserts_execution (db : List ExecutionRecord)
    (wf : Workflow) (workflowId tenantId leadId : String)
    (triggerData : Context) :
    ∃ r : ExecutionRecord,
      processTrigger db (some wf) workflowId tenantId leadId triggerData
        = db ++ [r]
      ∧ r.workflow_id = workflowId ∧ r.lead_id = leadId := by
  simp only [processTrigger, runWorkerJob]
  cases hexec : executeNodes wf.nodes wf.edges tenantId leadId triggerData with
  | ok results =>
    exact ⟨{ workflow_id := workflowId, tenant_id := tenantId, lead_id := leadId,
             status := "completed", node_results := results }, rfl, rfl, rfl⟩
  | error e =>
    exact ⟨{ workflow_id := workflowId, tenant_id := tenantId, lead_id := leadId,
             status := "running", node_results := [] }, rfl, rfl, rfl⟩

/-- C5 counterexample: activating a workflow whose edge targets the absent
node id "ghost" succeeds and sets its status to `active`; the dangling edge
is not detected. -/
theorem dangling_edge_activation_succeeds :
    hasDanglingEdge danglingWf.nodes danglingWf.edges = true
    ∧ (activateWorkflow danglingWf).1.status = "active"
    ∧ (activateWorkflow danglingWf).2.success = true :=
  ⟨rfl, rfl, rfl⟩

/-- C5 amended: the activation route performs no graph validation at all —
for every workflow row, dangling edges included, it sets status `active`
and reports success; at execution time a dangling edge target is silently
skipped by the traversal (node not found). -/
theorem activation_never_validates (wf : WorkflowRow) :
    activateWorkflow wf
      = ({ wf with status := "active" },
         { success := true, message := "Workflow activated" }) := rfl

/-- C6 counterexample: with the (ten, whatsapp) reputation at score 10 the
gate answers `allowed = false`, yet the send_message executor enqueues the
message anyway — its effect trace is the enqueue alone, with no gate
consultation — and reports `{sent: true}`, not a suspend. -/
theorem send_executor_ignores_gate_counterexample :
    (checkRateLimit lowReputation "ten" "whatsapp" 0).allowed = false
    ∧ executeNode sendNode "ten" "lead" []
        = .ok ([.addJob "messages" "send-message"
                  [("tenantId", some "ten"), ("leadId", some "lead"),
                   ("channel", some "whatsapp"), ("content", some "hi")]], .sent)
    ∧ (∀ e ∈ [Effect.addJob "messages" "send-message"
                [("tenantId", some "ten"), ("leadId", some "lead"),
                 ("channel", some "whatsapp"), ("content", some "hi")]],
         e.isGateCheck = false) := by
  refine ⟨by decide, rfl, by decide⟩

/-- C6 amended: the send_message, send_email and webhook executors dispatch
unconditionally — each emits exactly one enqueue effect and never consults
the Reputation/Throttle Gate, whatever `checkRateLimit` would answer. -/
theorem send_executors_skip_gate (node : Node) (tenantId leadId : String)
    (context : Context) (d : NodeData)
    (htype : node.type = "send_message" ∨ node.type = "send_email"
      ∨ node.type = "webhook")
    (hdata : node.data = some d) :
    ∃ (effects : List Effect) (result : NodeResult),
      executeNode node tenantId leadId context = .ok (effects, result)
      ∧ (∃ queueName jobName payload,
           effects = [.addJob queueName jobName payload])
      ∧ ∀ e ∈ effects, e.isGateCheck = false := by
  rcases htype with h | h | h
  · refine ⟨[.addJob "messages" "send-message"
        [("tenantId", some tenantId), ("leadId", some leadId),
         ("channel", d.channel), ("content", d.content)]], .sent,
      by simp [executeNode, h, hdata], ⟨_, _, _, rfl⟩, ?_⟩
    intro e he
    simp only [List.mem_singleton] at he
    subst he
    rfl
  · refine ⟨[.addJob "messages" "send-message"
        [("tenantId", some tenantId), ("leadId", some leadId),
         ("channel", some "email"), ("content", d.content),
         ("subject", d.subject)]], .sent,
      by simp [executeNode, h, hdata], ⟨_, _, _, rfl⟩, ?_⟩
    intro e he
    simp only [List.mem_singleton] at he
    subst he
    rfl
  · refine ⟨[.addJob "messages" "send-webhook"
        [("tenantId", some tenantId), ("url", d.url), ("leadId", some leadId)]],
      .webhookSent,
      by simp [executeNode, h, hdata], ⟨_, _, _, rfl⟩, ?_⟩
    intro e he
    simp only [List.mem_singleton] at he
    subst he
    rfl

/-- Witness for C6: the amended statement applied to the concrete
send_message node. -/
theorem send_executors_skip_gate_witness :
    ∃ (effects : List Effect) (result : NodeResult),
      executeNode sendNode "ten" "lead" [] = .ok (effects, result)
      ∧ (∃ queueName jobName payload,
           effects = [.addJob queueName jobName payload])
      ∧ ∀ e ∈ effects, e.isGateCheck = false :=
  send_executors_skip_gate sendNode "ten" "lead" []
    { channel := some "whatsapp", content := some "hi" } (Or.inl rfl) rfl

/-- C7 counterexample: the t2 → x1 edge is conditioned on `lead.score > 10`
while the context is empty, yet x1 executes — the edge is taken, because the
stub evaluator answers `true` for the missing variable instead of
non-matching. -/
theorem missing_variable_edge_is_taken :
    executeNodes condNodes condEdges "ten" "lead" []
      = .ok [("t2", .triggered), ("x1", .ended)]
    ∧ evaluateCondition "lead.score > 10" .triggered = true :=
  ⟨rfl, rfl⟩

/-- C7 amended: condition evaluation never throws — it is a total stub that
returns `true` for every condition string and result, so every outgoing
edge is taken, conditions (and missing context variables) notwithstanding. -/
theorem condition_evaluation_always_true :
    (∀ (condition : String) (result : NodeResult),
       evaluateCondition condition result = true)
    ∧ ∀ (edges : List Edge) (nodeId : String) (result : NodeResult),
        nextTargets edges nodeId result
          = (edges.filter (fun e => e.source == nodeId)).map (fun e => e.target) :=
  ⟨fun _ _ => rfl, nextTargets_eq_all⟩

/-- C8 counterexample: the record returned by the execute entrypoint has no
`executionId` field — it carries `jobId` (the queue job id) instead. -/
theorem execute_result_lacks_execution_id :
    ((executeEntry "wf1" [("tenantId", some "ten")] "job-1").2).lookup "executionId"
      = none
    ∧ ((executeEntry "wf1" [("tenantId", some "ten")] "job-1").2).lookup "jobId"
      = some "job-1" :=
  ⟨rfl, rfl⟩

/-- C8 amended: `execute` returns synchronously right after emitting the one
enqueue effect, and its result is a record with a `jobId` field and a
`status` field holding "queued"; it contains no `executionId` field. -/
theorem execute_enqueues_and_returns_job_id (workflowId : String)
    (data : List (String × Option String)) (jobId : String) :
    executeEntry workflowId data jobId
      = ([.addJob "workflows" "execute-workflow"
            (("workflowId", some workflowId) :: data)],
         [("jobId", jobId), ("status", "queued")])
    ∧ ((executeEntry workflowId data jobId).2).lookup "executionId" = none :=
  ⟨rfl, rfl⟩

/-- C9: reputation scores stay inside [0, 100] under any call history:
fresh entries start at 100 (success) or 90 (failure), an absent key appends
exactly the fresh entry, and every recalculated score is clamped into
[0, 100]. -/
theorem reputation_score_always_in_bounds :
    (∀ (calls : List (String × String × Bool × Int)),
       ∀ p ∈ runRecordMessages calls, 0 ≤ p.2.score ∧ p.2.score ≤ 100)
    ∧ (∀ (tenantId channel : String) (success : Bool) (now : Int),
        (freshReputation tenantId channel success now).score
          = if success then 100 else 90)
    ∧ (∀ (scores : List (String × ReputationScore)) (tenantId channel : String)
         (success : Bool) (now : Int),
        scores.lookup (repKey tenantId channel) = none →
        recordMessage scores tenantId channel success now
          = scores ++ [(repKey tenantId channel,
                        freshReputation tenantId channel success now)])
    ∧ (∀ (reputation : ReputationScore) (now : Int),
        0 ≤ calculateScore reputation now ∧ calculateScore reputation now ≤ 100) := by
  refine ⟨?_, ?_, ?_, calculateScore_bounds⟩
  · intro calls p hp
    exact runRecordMessages_bounds_aux calls [] (by simp) p hp
  · intro tenantId channel success now
    rfl
  · intro scores tenantId channel success now h
    unfold recordMessage
    rw [h]

/-- Witness for C9: the entry stored after one recorded message lies inside
the bounds, and recording a message under an unseen key appends the fresh
entry. -/
theorem reputation_score_witness :
    (0 ≤ e9.2.score ∧ e9.2.score ≤ 100)
    ∧ recordMessage [] "t" "whatsapp" true 5
        = [("t:whatsapp", freshReputation "t" "whatsapp" true 5)] := by
  constructor
  · refine reputation_score_always_in_bounds.1 [("t", "whatsapp", true, 0)] e9 ?_
    rw [show runRecordMessages [("t", "whatsapp", true, 0)] = [e9] from rfl]
    exact List.mem_singleton_self _
  · exact reputation_score_always_in_bounds.2.2.1 [] "t" "whatsapp" true 5 rfl

/-- C10: a node whose type has no case in the switch (wait_for_reply,
split_path, any unknown string) does not throw: its executor returns
`{unknown: true}` with no effects, and the traversal then enqueues all the
node's passing successors exactly as after a Continue. -/
theorem unknown_node_type_continues (node : Node) (tenantId leadId : String)
    (context : Context) (h : node.type ∉ handledNodeTypes) :
    executeNode node tenantId leadId context = .ok ([], .unknown)
    ∧ ∀ (edges : List Edge) (result : NodeResult),
        nextTargets edges node.id result
          = (edges.filter (fun e => e.source == node.id)).map (fun e => e.target) := by
  constructor
  · simp only [handledNodeTypes, List.mem_cons, List.not_mem_nil, or_false,
      not_or] at h
    obtain ⟨h1, h2, h3, h4, h5, h6, h7, h8, h9, h10, h11, h12⟩ := h
    simp [executeNode, h1, h2, h3, h4, h5, h6, h7, h8, h9, h10, h11, h12]
  · intro edges result
    exact nextTargets_eq_all edges node.id result

/-- Witness for C10: the wait_for_reply node returns `{unknown: true}` and
its successor over an unconditioned edge is enqueued. -/
theorem unknown_node_type_continues_witness :
    executeNode waitNode "ten" "lead" [] = .ok ([], .unknown)
    ∧ nextTargets [⟨"w1", "z1", none⟩] waitNode.id .unknown = ["z1"] := by
  have h := unknown_node_type_continues waitNode "ten" "lead" [] (by decide)
  exact ⟨h.1, (h.2 [⟨"w1", "z1", none⟩] .unknown).trans rfl⟩

end Chastly
